import Mathlib

/-!
Shallow embedding of the training-loop harness in
src/lib/pytorch_trainer_v2_mod.py.

Python floats are modelled as rationals, Python None via Option, and
exceptions via an explicit exception type threaded through the loop
functions.  The model, criterion and optimizer are external collaborators:
their per-batch results (mini-batch size and loss value, or a raised
exception) are supplied as oracles, exactly as the trainer observes them.
-/

namespace TrainerSpec

/-- The exception kinds relevant to the trainer code: the interrupt caught
at the top level of fit_loader, the division error raised by a 0 / 0 epoch
average, the attribute error raised by reading a never-assigned
self.valid_loss, the type error raised by adding a float to None, and a
catch-all for exceptions raised inside external collaborators. -/
inductive PyExc where
  | keyboardInterrupt
  | zeroDivisionError
  | attributeError
  | typeError
  | other
deriving DecidableEq

/-- Scheduler kinds distinguished by fit_loader (line 185): the class-name
test singles out ReduceLROnPlateau; every other scheduler class behaves
alike there. -/
inductive SchedKind where
  | reduceLROnPlateau
  | otherKind
deriving DecidableEq

/-- One observed call to scheduler.step at the end of an epoch: either with
the monitored validation loss (line 186) or without arguments (line 188). -/
inductive SchedStep where
  | plain
  | withMetric (v : ℚ)
deriving DecidableEq

/-- Outcome of one training mini-batch as the trainer observes it: the
mini-batch size X.size(0) and the scalar loss, or an exception raised by
the forward/backward/step collaborators. -/
abbrev TrainBatch := Except PyExc (ℕ × ℚ)

/-- Outcome of one validation mini-batch: size and an optional loss (the
code at line 159 explicitly handles a criterion returning None), or an
exception. -/
abbrev ValidBatch := Except PyExc (ℕ × Option ℚ)

/-- The DeepNetTrainer state observable by the claims: last_epoch, the two
loss histories of self.metrics, the self.valid_loss attribute (outer none
means the attribute was never assigned), the attached scheduler kind, and
the record of observable callback/scheduler invocations (step calls,
epochs passed to on_epoch_end, number of on_train_end firings). -/
structure TrainerState where
  lastEpoch : ℕ
  trainLosses : List ℚ
  validLosses : List (Option ℚ)
  validLossAttr : Option (Option ℚ)
  schedKind : Option SchedKind
  stepCalls : List SchedStep
  epochEnds : List ℕ
  trainEnds : ℕ
deriving DecidableEq

/-- A fresh trainer as built by DeepNetTrainer.__init__ with no scheduler:
last_epoch = 0, empty loss histories, valid_loss never assigned. -/
def trainerInit : TrainerState :=
  { lastEpoch := 0, trainLosses := [], validLosses := [], validLossAttr := none,
    schedKind := none, stepCalls := [], epochEnds := [], trainEnds := 0 }

/-- The training-phase accumulator of fit_loader (lines 103-129):
epo_samples and epo_loss are threaded through the mini-batch loop; the
loss is weighted by mb_size when the criterion averages internally
(criterion.size_average), else added unweighted.  An exception from a
batch aborts the loop. -/
def trainAccum : List TrainBatch → Bool → ℕ → ℚ → Except PyExc (ℕ × ℚ)
  | [], _, samples, loss => .ok (samples, loss)
  | b :: rest, sizeAvg, samples, loss =>
    match b with
    | .error e => .error e
    | .ok (mb, l) =>
        trainAccum rest sizeAvg (samples + mb)
          (loss + (if sizeAvg then (mb : ℚ) * l else l))

/-- The per-epoch training loss of fit_loader (line 132):
float(epo_loss / epo_samples).  A zero sample count makes the Python
division raise ZeroDivisionError; there is no guard in the code. -/
def runTrainPhase (bs : List TrainBatch) (sizeAvg : Bool) : Except PyExc ℚ :=
  match trainAccum bs sizeAvg 0 0 with
  | .error e => .error e
  | .ok (samples, loss) =>
      if samples = 0 then .error .zeroDivisionError
      else .ok (loss / (samples : ℚ))

/-- The validation-phase accumulator (lines 140-169): a batch whose loss is
None sets epo_loss to None (line 160); a later numeric loss added to None
would raise TypeError in Python (epo_loss += vloss with epo_loss = None). -/
def validAccum : List ValidBatch → Bool → ℕ → Option ℚ → Except PyExc (ℕ × Option ℚ)
  | [], _, samples, acc => .ok (samples, acc)
  | b :: rest, sizeAvg, samples, acc =>
    match b with
    | .error e => .error e
    | .ok (mb, none) => validAccum rest sizeAvg (samples + mb) none
    | .ok (mb, some l) =>
        match acc with
        | none => .error .typeError
        | some a =>
            validAccum rest sizeAvg (samples + mb)
              (some (a + (if sizeAvg then (l : ℚ) * mb else l)))

/-- The per-epoch validation loss (lines 172-175): None propagates to
self.valid_loss without any division; otherwise float(epo_loss /
epo_samples) with Python division semantics. -/
def runValidPhase (bs : List ValidBatch) (sizeAvg : Bool) : Except PyExc (Option ℚ) :=
  match validAccum bs sizeAvg 0 (some 0) with
  | .error e => .error e
  | .ok (_, none) => .ok none
  | .ok (samples, some a) =>
      if samples = 0 then .error .zeroDivisionError
      else .ok (some (a / (samples : ℚ)))

/-- The scheduler dispatch at the end of an epoch (lines 184-188).  The
class-name test short-circuits, so self.valid_loss is read only for
ReduceLROnPlateau; if that attribute was never assigned the read raises
AttributeError.  Returns the step call made, if any. -/
def schedDispatch (kind : Option SchedKind) (validLossAttr : Option (Option ℚ)) :
    Except PyExc (Option SchedStep) :=
  match kind with
  | none => .ok none
  | some SchedKind.reduceLROnPlateau =>
      match validLossAttr with
      | none => .error .attributeError
      | some (some v) => .ok (some (.withMetric v))
      | some none => .ok (some .plain)
  | some SchedKind.otherKind => .ok (some .plain)

/-- The tail of one epoch (lines 181-188): fire on_epoch_end with the
current epoch index, then dispatch the scheduler step. -/
def epochFinish (st : TrainerState) (epoch : ℕ) : TrainerState × Option PyExc :=
  match schedDispatch st.schedKind st.validLossAttr with
  | .error e => ({ st with epochEnds := st.epochEnds ++ [epoch] }, some e)
  | .ok none => ({ st with epochEnds := st.epochEnds ++ [epoch] }, none)
  | .ok (some c) =>
      ({ st with epochEnds := st.epochEnds ++ [epoch],
                 stepCalls := st.stepCalls ++ [c] }, none)

/-- One iteration of the epoch loop of fit_loader (lines 95-188): training
phase and history append (lines 103-133), then validation phase and append
of the loss or a None placeholder (lines 137-179, also assigning
self.valid_loss when validation ran), then on_epoch_end and the scheduler
dispatch.  An exception leaves the state accumulated so far. -/
def runEpoch (sizeAvg : Bool) (tb : List TrainBatch) (vb : Option (List ValidBatch))
    (st : TrainerState) (epoch : ℕ) : TrainerState × Option PyExc :=
  match runTrainPhase tb sizeAvg with
  | .error e => (st, some e)
  | .ok tl =>
    let st1 := { st with trainLosses := st.trainLosses ++ [tl] }
    match vb with
    | none => epochFinish { st1 with validLosses := st1.validLosses ++ [none] } epoch
    | some vbs =>
      match runValidPhase vbs sizeAvg with
      | .error e => (st1, some e)
      | .ok vl =>
          epochFinish
            { st1 with validLosses := st1.validLosses ++ [vl], validLossAttr := some vl }
            epoch

/-- The epoch loop over a list of epoch indices; the first exception ends
the loop and is reported together with the state accumulated so far. -/
def runEpochs (sizeAvg : Bool) (td : ℕ → List TrainBatch)
    (vd : Option (ℕ → List ValidBatch)) :
    List ℕ → TrainerState → TrainerState × Option PyExc
  | [], st => (st, none)
  | e :: es, st =>
    match runEpoch sizeAvg (td e) (vd.map fun f => f e) st e with
    | (st1, none) => runEpochs sizeAvg td vd es st1
    | (st1, some exc) => (st1, some exc)

/-- The epoch index list of fit_loader (line 95):
range(last_epoch + 1, last_epoch + n_epochs + 1). -/
def fitEpochs (base n : ℕ) : List ℕ :=
  (List.range n).map fun i => base + 1 + i

/-- DeepNetTrainer.fit_loader (lines 86-194): run the epoch loop inside a
try block that catches exactly KeyboardInterrupt (lines 190-191), then fire
on_train_end on every callback (lines 193-194).  Any other exception
propagates before on_train_end.  Note that fit_loader never assigns
self.last_epoch. -/
def fit_loader (sizeAvg : Bool) (td : ℕ → List TrainBatch)
    (vd : Option (ℕ → List ValidBatch)) (nEpochs : ℕ) (st : TrainerState) :
    TrainerState × Option PyExc :=
  match runEpochs sizeAvg td vd (fitEpochs st.lastEpoch nEpochs) st with
  | (st1, none) => ({ st1 with trainEnds := st1.trainEnds + 1 }, none)
  | (st1, some PyExc.keyboardInterrupt) =>
      ({ st1 with trainEnds := st1.trainEnds + 1 }, none)
  | (st1, some e) => (st1, some e)

/-- The monitored loss of ModelCheckpoint.on_epoch_end (line 488):
eloss = metrics[valid][losses][-1] or metrics[train][losses][-1],
with Python falsy-or semantics: both None and 0.0 fall back to the
training loss. -/
def monitoredLoss (vl : Option ℚ) (tl : ℚ) : ℚ :=
  match vl with
  | none => tl
  | some v => if v = 0 then tl else v

/-- The state of a ModelCheckpoint callback between epochs: best loss so
far, the epoch of the best snapshot, and the list of epochs at which the
state was persisted to storage (save_trainer_state calls). -/
structure CheckpointState where
  bestLoss : ℚ
  bestEpoch : ℕ
  saves : List ℕ
deriving DecidableEq

/-- The checkpoint state set up by on_train_begin on a fresh run (lines
472-474): best_epoch = trainer.last_epoch = 0 and the sentinel
best_loss = 1e10. -/
def checkpointInit : CheckpointState :=
  { bestLoss := 10000000000, bestEpoch := 0, saves := [] }

/-- ModelCheckpoint.on_epoch_end (lines 487-496): when the monitored loss
strictly improves on best_loss, update best_loss, best_epoch and the best
snapshot, and persist to storage when a basename is configured. -/
def checkpointOnEpochEnd (hasBasename : Bool) (cs : CheckpointState) (epoch : ℕ)
    (vl : Option ℚ) (tl : ℚ) : CheckpointState :=
  if monitoredLoss vl tl < cs.bestLoss then
    { bestLoss := monitoredLoss vl tl, bestEpoch := epoch,
      saves := if hasBasename then cs.saves ++ [epoch] else cs.saves }
  else cs

/-- Fold on_epoch_end over a run: one (epoch, last valid loss, last train
loss) triple per completed epoch, in order. -/
def checkpointFold (hasBasename : Bool) :
    CheckpointState → List (ℕ × Option ℚ × ℚ) → CheckpointState
  | cs, [] => cs
  | cs, (e, vl, tl) :: rest =>
      checkpointFold hasBasename (checkpointOnEpochEnd hasBasename cs e vl tl) rest

/-- The trainer state that DeepNetTrainer.save_state / load_state touch:
model parameters, the two loss histories, and last_epoch.  Used by the
lr_find model. -/
structure LRState where
  params : List ℚ
  lastEpoch : ℕ
  trainLosses : List ℚ
  validLosses : List (Option ℚ)
deriving DecidableEq

/-- DeepNetTrainer.load_state (lines 254-258) applied to the snapshot that
save_state wrote: the model parameters are restored from the file, the
metrics dict is replaced key by key with the saved histories, and
last_epoch is recomputed as the length of the restored training history.
The state held before the load is discarded entirely, so the result
depends only on the snapshot. -/
def load_state_model (saved : LRState) : LRState :=
  { params := saved.params,
    lastEpoch := saved.trainLosses.length,
    trainLosses := saved.trainLosses,
    validLosses := saved.validLosses }

/-- The sweep loop of DeepNetTrainer.lr_find (lines 326-346).  Per batch:
the throwaway scheduler is stepped and the resulting learning rate
recorded (modelled by the oracle lrAt), then forward/loss/backward run (an
exception there aborts the loop before the optimizer step), the optimizer
step mutates the parameters (oracle batchEffect), the loss is recorded,
and then: a strict improvement updates best and continues; otherwise the
loop breaks when the loss exceeds best * 10000 or when i = numIt - 1.
Returns (parameters, recorded lrs, recorded losses, raised exception). -/
def lrSweep (batchEffect : ℕ → List ℚ → List ℚ) (lrAt : ℕ → ℚ) (numIt : ℕ) :
    List (Except PyExc ℚ) → ℕ → List ℚ → List ℚ → List ℚ → ℚ →
    List ℚ × List ℚ × List ℚ × Option PyExc
  | [], _, params, lrs, losses, _ => (params, lrs, losses, none)
  | b :: rest, i, params, lrs, losses, best =>
    let lrs1 := lrs ++ [lrAt i]
    match b with
    | .error e => (params, lrs1, losses, some e)
    | .ok l =>
      let params1 := batchEffect i params
      let losses1 := losses ++ [l]
      if l < best then lrSweep batchEffect lrAt numIt rest (i + 1) params1 lrs1 losses1 l
      else if l > best * 10000 ∨ i = numIt - 1 then (params1, lrs1, losses1, none)
      else lrSweep batchEffect lrAt numIt rest (i + 1) params1 lrs1 losses1 best

/-- The number of batches the lr_find sweep processes: one recorded loss
per executed loop body. -/
def lr_find_batches (data : List (Except PyExc ℚ)) (numIt : ℕ) : ℕ :=
  (lrSweep (fun _ p => p) (fun _ => 0) numIt data 0 [] [] [] (1000000000)).2.2.1.length

/-- DeepNetTrainer.lr_find (lines 305-358): save_state to a tmp snapshot,
run the sweep with best initialised to 1e9, and in a finally block restore
the snapshot with load_state whatever the outcome; an exception from the
sweep is re-raised (bare except: raise) after the restore. -/
def lr_find_model (batchEffect : ℕ → List ℚ → List ℚ) (lrAt : ℕ → ℚ)
    (data : List (Except PyExc ℚ)) (numIt : ℕ) (st : LRState) :
    LRState × Except PyExc (List ℚ × List ℚ) :=
  match lrSweep batchEffect lrAt numIt data 0 st.params [] [] (1000000000) with
  | (_, _, _, some e) => (load_state_model st, .error e)
  | (_, lrs, losses, none) => (load_state_model st, .ok (lrs, losses))

/-- The mutable restart state of SGDRestarts (lines 705-720).  The field
eta_min is immutable after construction and enters only the returned
learning-rate value, so it is kept as a rational to keep the state
decidable; To, Ti, Tmul, restarts and Tcur are the integer counters of the
source, last_epoch may be -1, and n_batches is the configured
batches-per-epoch count. -/
structure SGDRState where
  etaMin : ℚ
  To : ℕ
  Ti : ℕ
  Tmul : ℕ
  restarts : ℕ
  Tcur : ℕ
  lastEpoch : ℤ
  nBatches : ℕ
deriving DecidableEq

/-- SGDRestarts.__init__ (lines 705-720): the asserts require
eta_min > 0, To > 0 and Tmul > 0; on success Ti = To, restarts = 0,
Tcur = 0. -/
def sgdrInit (etaMin : ℚ) (To Tmul : ℕ) (lastEpoch : ℤ) (nBatches : ℕ) :
    Option SGDRState :=
  if 0 < etaMin ∧ 0 < To ∧ 0 < Tmul then
    some { etaMin := etaMin, To := To, Ti := To, Tmul := Tmul, restarts := 0,
           Tcur := 0, lastEpoch := lastEpoch, nBatches := nBatches }
  else none

/-- The epoch bookkeeping at the top of SGDRestarts.get_lr (lines
743-749): on the very first call last_epoch is initialised; on a batch of
a later epoch Tcur is incremented; on further batches of the same epoch
nothing changes. -/
def SGDRState.epochAdvance (s : SGDRState) (cepoch : ℤ) : SGDRState :=
  if s.lastEpoch = -1 then { s with lastEpoch := cepoch }
  else if s.lastEpoch < cepoch then { s with lastEpoch := cepoch, Tcur := s.Tcur + 1 }
  else s

/-- The restart test of SGDRestarts.get_lr (lines 751-758): when Tcur has
reached Ti, reset Tcur, increment restarts, and set the new period
Ti = To * Tmul ** restarts with the incremented counter. -/
def SGDRState.restartCheck (s : SGDRState) : SGDRState :=
  if s.Tcur = s.Ti then
    { s with Tcur := 0, restarts := s.restarts + 1,
             Ti := s.To * s.Tmul ^ (s.restarts + 1) }
  else s

/-- The full state mutation of one get_lr call. -/
def SGDRState.stepUpdate (s : SGDRState) (cepoch : ℤ) : SGDRState :=
  (s.epochAdvance cepoch).restartCheck

/-- The learning-rate value computed at the bottom of get_lr (lines
760-767) from the already-updated state: step = Ti / max(1, Ti*n_batches
- 1), x = step * (Tcur*n_batches + cbatch), and the cosine interpolation
between eta_min and the initial group rate. -/
noncomputable def SGDRState.lrValue (s : SGDRState) (lr : ℚ) (cbatch : ℕ) : ℝ :=
  let stepr : ℝ := (s.Ti : ℝ) / ((max 1 (s.Ti * s.nBatches - 1) : ℕ) : ℝ)
  let x : ℝ := stepr * ((s.Tcur * s.nBatches + cbatch : ℕ) : ℝ)
  (s.etaMin : ℝ) + ((lr : ℝ) - (s.etaMin : ℝ)) * (1 + Real.cos (x * Real.pi / (s.Ti : ℝ))) / 2

/-- SGDRestarts.get_lr (lines 741-767): mutate the state, then return the
learning rate for the given initial group rate and batch index. -/
noncomputable def SGDRState.get_lr (s : SGDRState) (lr : ℚ) (cepoch : ℤ) (cbatch : ℕ) :
    SGDRState × ℝ :=
  let s2 := s.stepUpdate cepoch
  (s2, s2.lrValue lr cbatch)

/-- SGDRestarts.step (lines 770-780): a None batch returns immediately; a
None epoch defaults to last_epoch + 1; otherwise get_lr runs once per
parameter group (mutating the state each time) and last_epoch is set to
the given epoch.  Returns the learning rates written to the groups. -/
noncomputable def sgdrStep (s : SGDRState) (initialLrs : List ℚ) (epoch : Option ℤ)
    (batch : Option ℕ) : SGDRState × List ℝ :=
  match batch with
  | none => (s, [])
  | some cbatch =>
    let ep := epoch.getD (s.lastEpoch + 1)
    let r := initialLrs.foldl
      (fun acc ilr =>
        let res := SGDRState.get_lr acc.1 ilr ep cbatch
        (res.1, acc.2 ++ [res.2]))
      (s, ([] : List ℝ))
    ({ r.1 with lastEpoch := ep }, r.2)

/-- State evolution of a run with one parameter group and one batch per
epoch: one get_lr state mutation per listed epoch index. -/
def sgdrSim (s : SGDRState) (epochs : List ℤ) : SGDRState :=
  epochs.foldl (fun t e => t.stepUpdate e) s

/-- The epoch indices 1, 2, ..., n as integers. -/
def epochSeq (n : ℕ) : List ℤ :=
  (List.range n).map fun i => (i : ℤ) + 1

/-- Claim C5 (confirmed): on every on_epoch_end the checkpointer monitors
the last validation loss when that value is truthy, and falls back to the
last training loss both when the validation loss is null and when it is
exactly zero, by Python falsy-or semantics. -/
theorem C5_monitored_loss_fallback :
    (∀ t : ℚ, monitoredLoss none t = t) ∧
    (∀ t : ℚ, monitoredLoss (some 0) t = t) ∧
    (∀ v t : ℚ, v ≠ 0 → monitoredLoss (some v) t = v) :=
  ⟨fun _ => rfl,
   fun t => by simp [monitoredLoss],
   fun v t hv => by simp [monitoredLoss, hv]⟩

/-- Witness for C5 at concrete inputs: a nonzero validation loss is kept,
a missing one falls back to the training loss. -/
theorem C5_monitored_loss_fallback_witness :
    monitoredLoss (some 2) 5 = 2 ∧ monitoredLoss none 5 = 5 :=
  ⟨C5_monitored_loss_fallback.2.2 2 5 (by norm_num),
   C5_monitored_loss_fallback.1 5⟩

/-- Claim C7 (confirmed): the checkpointer overwrites its best snapshot
and persists exactly when the monitored loss is strictly below the
previous best, and the monitored sequence 0.5, 0.5, 0.4, 0.6 from the
1e10 sentinel produces exactly the saves at epochs 1 and 3. -/
theorem C7_checkpoint_strict_improvement :
    (∀ (cs : CheckpointState) (e : ℕ) (vl : Option ℚ) (tl : ℚ),
      ((checkpointOnEpochEnd true cs e vl tl).saves = cs.saves ++ [e] ∧
       (checkpointOnEpochEnd true cs e vl tl).bestLoss = monitoredLoss vl tl ∧
       (checkpointOnEpochEnd true cs e vl tl).bestEpoch = e) ↔
      monitoredLoss vl tl < cs.bestLoss) ∧
    (checkpointFold true checkpointInit
        [(1, some (1/2), 1), (2, some (1/2), 1),
         (3, some (2/5), 1), (4, some (3/5), 1)]).saves = [1, 3] := by
  constructor
  · intro cs e vl tl
    constructor
    · rintro ⟨hs, -, -⟩
      by_contra hlt
      simp only [checkpointOnEpochEnd, if_neg hlt] at hs
      have := congrArg List.length hs
      simp at this
    · intro hlt
      simp [checkpointOnEpochEnd, if_pos hlt]
  · norm_num [checkpointFold, checkpointOnEpochEnd, monitoredLoss, checkpointInit]

/-- Witness for C7: strict improvement from the sentinel at epoch 5
records a save. -/
theorem C7_checkpoint_strict_improvement_witness :
    (checkpointOnEpochEnd true checkpointInit 5 (some (1/3)) 1).saves
        = checkpointInit.saves ++ [5] ∧
    (checkpointOnEpochEnd true checkpointInit 5 (some (1/3)) 1).bestLoss
        = monitoredLoss (some (1/3)) 1 ∧
    (checkpointOnEpochEnd true checkpointInit 5 (some (1/3)) 1).bestEpoch = 5 :=
  (C7_checkpoint_strict_improvement.1 checkpointInit 5 (some (1/3)) 1).mpr
    (by norm_num [monitoredLoss, checkpointInit])

/-- Auxiliary: the training accumulator on exception-free batches returns
the sum of the mini-batch sizes as the sample count. -/
theorem trainAccum_ok (sizeAvg : Bool) :
    ∀ (bs : List (ℕ × ℚ)) (s : ℕ) (l : ℚ),
      ∃ l2, trainAccum (bs.map Except.ok) sizeAvg s l
        = Except.ok (s + (bs.map Prod.fst).sum, l2) := by
  intro bs
  induction bs with
  | nil => intro s l; exact ⟨l, by simp [trainAccum]⟩
  | cons b rest ih =>
    intro s l
    obtain ⟨m, lv⟩ := b
    obtain ⟨l2, h⟩ := ih (s + m) (l + if sizeAvg then (m : ℚ) * lv else lv)
    exact ⟨l2, by simp [trainAccum, h, Nat.add_assoc]⟩

/-- Claim C10 (confirmed): an epoch whose training iterator yields zero
batches reaches the epoch-average division with 0 samples and raises
ZeroDivisionError, while any epoch with at least one batch of at least
one sample completes the division. -/
theorem C10_empty_train_loader :
    (∀ sizeAvg : Bool, runTrainPhase [] sizeAvg = Except.error PyExc.zeroDivisionError) ∧
    (∀ (sizeAvg : Bool) (bs : List (ℕ × ℚ)), bs ≠ [] → (∀ p ∈ bs, 1 ≤ p.1) →
      ∃ q, runTrainPhase (bs.map Except.ok) sizeAvg = Except.ok q) := by
  constructor
  · intro _; rfl
  · intro sa bs hne hpos
    obtain ⟨l2, h⟩ := trainAccum_ok sa bs 0 0
    have hsum : (bs.map Prod.fst).sum ≠ 0 := by
      cases bs with
      | nil => exact absurd rfl hne
      | cons b rest =>
        have h1 : 1 ≤ b.1 := hpos b (by simp)
        simp only [List.map_cons, List.sum_cons]
        omega
    refine ⟨l2 / (((bs.map Prod.fst).sum : ℕ) : ℚ), ?_⟩
    unfold runTrainPhase
    rw [h]
    simp [hsum]

/-- Witness for C10: the nonempty side at one batch of one sample with
loss 2. -/
theorem C10_empty_train_loader_witness :
    runTrainPhase [] false = Except.error PyExc.zeroDivisionError ∧
    ∃ q, runTrainPhase ([((1 : ℕ), (2 : ℚ))].map Except.ok) false = Except.ok q :=
  ⟨C10_empty_train_loader.1 false,
   C10_empty_train_loader.2 false [(1, 2)] (by simp) (by simp)⟩

/-- Claim C3 (code_bug): the lr_find sweep is meant to stop at the batch
budget num_it, but the budget test i == num_it - 1 sits in the elif branch
and is skipped whenever the loss strictly improves; with budget 2 and the
strictly decreasing losses 3, 2, 1 the loop processes 3 batches. -/
theorem C3_budget_check_skipped :
    lr_find_batches [Except.ok 3, Except.ok 2, Except.ok 1] 2 = 3 ∧
    ¬ lr_find_batches [Except.ok 3, Except.ok 2, Except.ok 1] 2 ≤ 2 := by
  have h : lr_find_batches [Except.ok 3, Except.ok 2, Except.ok 1] 2 = 3 := by
    norm_num [lr_find_batches, lrSweep]
  exact ⟨h, by omega⟩

/-- Claim C2, counterexample: Tcur is not mutated once per batch.  A get_lr
call for a second batch of the epoch already recorded in last_epoch leaves
the whole state, in particular Tcur, unchanged. -/
theorem C2_counterexample :
    (SGDRState.get_lr
        { etaMin := 1, To := 4, Ti := 4, Tmul := 1, restarts := 0, Tcur := 1,
          lastEpoch := 2, nBatches := 2 } 1 2 1).1
      = { etaMin := 1, To := 4, Ti := 4, Tmul := 1, restarts := 0, Tcur := 1,
          lastEpoch := 2, nBatches := 2 } := rfl

/-- Claim C2 (corrected): in get_lr, Tcur counts epochs elapsed in the
current period: it is incremented exactly when the incoming batch belongs
to a later epoch than last_epoch (and last_epoch is initialised on the
first call instead); the restart test runs on every call: whenever Tcur
equals Ti after the epoch bookkeeping, Tcur resets to 0, the restart
counter increments, and Ti becomes To * Tmul ^ restarts with the new
counter value. -/
theorem C2_Tcur_counts_epochs :
    ∀ (s : SGDRState) (cepoch : ℤ),
      ((s.epochAdvance cepoch).Tcur =
          if s.lastEpoch ≠ -1 ∧ s.lastEpoch < cepoch then s.Tcur + 1 else s.Tcur) ∧
      (s.epochAdvance cepoch).Ti = s.Ti ∧
      (s.epochAdvance cepoch).restarts = s.restarts ∧
      (s.epochAdvance cepoch).To = s.To ∧
      (s.epochAdvance cepoch).Tmul = s.Tmul ∧
      s.stepUpdate cepoch =
        (if (s.epochAdvance cepoch).Tcur = (s.epochAdvance cepoch).Ti then
          { s.epochAdvance cepoch with
              Tcur := 0,
              restarts := (s.epochAdvance cepoch).restarts + 1,
              Ti := (s.epochAdvance cepoch).To *
                      (s.epochAdvance cepoch).Tmul ^ ((s.epochAdvance cepoch).restarts + 1) }
        else s.epochAdvance cepoch) := by
  intro s cepoch
  refine ⟨?_, ?_, ?_, ?_, ?_, rfl⟩
  all_goals
    unfold SGDRState.epochAdvance
    by_cases h1 : s.lastEpoch = -1
    · simp [h1]
    · by_cases h2 : s.lastEpoch < cepoch
      · simp [h1, h2]
      · simp [h1, h2]

/-- Witness for C2 at a concrete batch of a new epoch: applying the
characterization shows Tcur advances from 0 to 1. -/
theorem C2_Tcur_counts_epochs_witness :
    (SGDRState.epochAdvance
        { etaMin := 1, To := 4, Ti := 4, Tmul := 1, restarts := 0, Tcur := 0,
          lastEpoch := 1, nBatches := 1 } 2).Tcur
      = if (1 : ℤ) ≠ -1 ∧ (1 : ℤ) < 2 then 0 + 1 else 0 :=
  (C2_Tcur_counts_epochs
    { etaMin := 1, To := 4, Ti := 4, Tmul := 1, restarts := 0, Tcur := 0,
      lastEpoch := 1, nBatches := 1 } 2).1

/-- Claim C8, counterexample: the configuration the claim describes has
eta_min = 0, which the constructor assertion eta_min > 0 rejects. -/
theorem C8_counterexample : sgdrInit 0 4 1 (-1) 1 = none := by
  norm_num [sgdrInit]

/-- Claim C8 (corrected): the constructor requires eta_min > 0 (so the
eta_min = 0 configuration of the claim is rejected); for every permitted
configuration with To = 4 and one batch per epoch the stated properties
hold: at batch 0 of a period the rate equals the initial group rate, at
the last batch of the period (Tcur = 3) it equals eta_min, the step method
applies exactly the get_lr state mutation, a restart occurs exactly every
4 batches when Tmul = 1 with Ti constant at 4, and with Tmul = 2 the
period Ti doubles on each restart (4, 8, 16). -/
theorem C8_cosine_restart_schedule :
    (∀ em : ℚ, 0 < em → sgdrInit em 4 1 (-1) 1
        = some { etaMin := em, To := 4, Ti := 4, Tmul := 1, restarts := 0,
                 Tcur := 0, lastEpoch := -1, nBatches := 1 }) ∧
    (∀ (em lr : ℚ) (r : ℕ) (le : ℤ),
      SGDRState.lrValue
        { etaMin := em, To := 4, Ti := 4, Tmul := 1, restarts := r, Tcur := 0,
          lastEpoch := le, nBatches := 1 } lr 0 = (lr : ℝ)) ∧
    (∀ (em lr : ℚ) (r : ℕ) (le : ℤ),
      SGDRState.lrValue
        { etaMin := em, To := 4, Ti := 4, Tmul := 1, restarts := r, Tcur := 3,
          lastEpoch := le, nBatches := 1 } lr 0 = (em : ℝ)) ∧
    (∀ (s : SGDRState) (lr : ℚ) (e : ℤ) (cb : ℕ),
      (sgdrStep s [lr] (some e) (some cb)).1 = { s.stepUpdate e with lastEpoch := e }) ∧
    ((sgdrSim { etaMin := 1, To := 4, Ti := 4, Tmul := 1, restarts := 0, Tcur := 0,
                lastEpoch := -1, nBatches := 1 } (epochSeq 4)).restarts = 0 ∧
     (sgdrSim { etaMin := 1, To := 4, Ti := 4, Tmul := 1, restarts := 0, Tcur := 0,
                lastEpoch := -1, nBatches := 1 } (epochSeq 5)).restarts = 1 ∧
     (sgdrSim { etaMin := 1, To := 4, Ti := 4, Tmul := 1, restarts := 0, Tcur := 0,
                lastEpoch := -1, nBatches := 1 } (epochSeq 8)).restarts = 1 ∧
     (sgdrSim { etaMin := 1, To := 4, Ti := 4, Tmul := 1, restarts := 0, Tcur := 0,
                lastEpoch := -1, nBatches := 1 } (epochSeq 9)).restarts = 2 ∧
     (sgdrSim { etaMin := 1, To := 4, Ti := 4, Tmul := 1, restarts := 0, Tcur := 0,
                lastEpoch := -1, nBatches := 1 } (epochSeq 13)).restarts = 3 ∧
     (sgdrSim { etaMin := 1, To := 4, Ti := 4, Tmul := 1, restarts := 0, Tcur := 0,
                lastEpoch := -1, nBatches := 1 } (epochSeq 13)).Ti = 4) ∧
    ((sgdrSim { etaMin := 1, To := 4, Ti := 4, Tmul := 2, restarts := 0, Tcur := 0,
                lastEpoch := -1, nBatches := 1 } (epochSeq 5)).restarts = 1 ∧
     (sgdrSim { etaMin := 1, To := 4, Ti := 4, Tmul := 2, restarts := 0, Tcur := 0,
                lastEpoch := -1, nBatches := 1 } (epochSeq 5)).Ti = 8 ∧
     (sgdrSim { etaMin := 1, To := 4, Ti := 4, Tmul := 2, restarts := 0, Tcur := 0,
                lastEpoch := -1, nBatches := 1 } (epochSeq 13)).restarts = 2 ∧
     (sgdrSim { etaMin := 1, To := 4, Ti := 4, Tmul := 2, restarts := 0, Tcur := 0,
                lastEpoch := -1, nBatches := 1 } (epochSeq 13)).Ti = 16) := by
  refine ⟨?_, ?_, ?_, fun s lr e cb => rfl, by decide, by decide⟩
  · intro em hem
    simp [sgdrInit, hem]
  · intro em lr r le
    simp only [SGDRState.lrValue]
    norm_num [Real.cos_zero]
  · intro em lr r le
    simp only [SGDRState.lrValue]
    norm_num

/-- Witness for C8 at the concrete permitted configuration eta_min = 1:
the constructor accepts it and the period-start rate equals the initial
rate. -/
theorem C8_cosine_restart_schedule_witness :
    sgdrInit 1 4 1 (-1) 1
      = some { etaMin := 1, To := 4, Ti := 4, Tmul := 1, restarts := 0,
               Tcur := 0, lastEpoch := -1, nBatches := 1 } ∧
    SGDRState.lrValue
        { etaMin := 1, To := 4, Ti := 4, Tmul := 1, restarts := 0, Tcur := 0,
          lastEpoch := -1, nBatches := 1 } 2 0 = ((2 : ℚ) : ℝ) :=
  ⟨C8_cosine_restart_schedule.1 1 (by norm_num),
   C8_cosine_restart_schedule.2.1 1 2 0 (-1)⟩

/-- Auxiliary: with no scheduler attached the epoch tail only records the
on_epoch_end firing and makes no step call. -/
theorem epochFinish_no_sched {st : TrainerState} (h : st.schedKind = none) (e : ℕ) :
    epochFinish st e = ({ st with epochEnds := st.epochEnds ++ [e] }, none) := by
  unfold epochFinish
  rw [h]
  rfl

/-- Auxiliary: a scheduler-free epoch whose training phase (and validation
phase, when present) completes appends exactly one entry to each history,
fires on_epoch_end once with the given index, and leaves last_epoch,
the scheduler field, the on_train_end count and the step calls alone. -/
theorem runEpoch_no_sched_ok (sa : Bool) (tb : List TrainBatch)
    (vb : Option (List ValidBatch)) (st : TrainerState) (e : ℕ)
    (hs : st.schedKind = none)
    (ht : ∃ q, runTrainPhase tb sa = Except.ok q)
    (hv : ∀ vbs, vb = some vbs → ∃ v, runValidPhase vbs sa = Except.ok v) :
    ∃ st1, runEpoch sa tb vb st e = (st1, none) ∧
      st1.trainLosses.length = st.trainLosses.length + 1 ∧
      st1.validLosses.length = st.validLosses.length + 1 ∧
      st1.epochEnds = st.epochEnds ++ [e] ∧
      st1.lastEpoch = st.lastEpoch ∧
      st1.schedKind = none ∧
      st1.trainEnds = st.trainEnds ∧
      st1.stepCalls = st.stepCalls := by
  obtain ⟨q, hq⟩ := ht
  cases vb with
  | none =>
    refine ⟨{ st with
                trainLosses := st.trainLosses ++ [q],
                validLosses := st.validLosses ++ [none],
                epochEnds := st.epochEnds ++ [e] },
            ?_, by simp, by simp, rfl, rfl, hs, rfl, rfl⟩
    simp only [runEpoch, hq]
    exact epochFinish_no_sched (by exact hs) e
  | some vbs =>
    obtain ⟨v, hvv⟩ := hv vbs rfl
    refine ⟨{ st with
                trainLosses := st.trainLosses ++ [q],
                validLosses := st.validLosses ++ [v],
                validLossAttr := some v,
                epochEnds := st.epochEnds ++ [e] },
            ?_, by simp, by simp, rfl, rfl, hs, rfl, rfl⟩
    simp only [runEpoch, hq, hvv]
    exact epochFinish_no_sched (by exact hs) e

/-- Auxiliary: the scheduler-free epoch loop over any index list, with
every epoch completing, appends one history entry per epoch, fires
on_epoch_end exactly with the given indices in order, and leaves
last_epoch and the on_train_end count alone. -/
theorem runEpochs_no_sched_ok (sa : Bool) (td : ℕ → List TrainBatch)
    (vd : Option (ℕ → List ValidBatch)) :
    ∀ (es : List ℕ) (st : TrainerState), st.schedKind = none →
      (∀ e ∈ es, ∃ q, runTrainPhase (td e) sa = Except.ok q) →
      (∀ f, vd = some f → ∀ e ∈ es, ∃ v, runValidPhase (f e) sa = Except.ok v) →
      ∃ st1, runEpochs sa td vd es st = (st1, none) ∧
        st1.trainLosses.length = st.trainLosses.length + es.length ∧
        st1.validLosses.length = st.validLosses.length + es.length ∧
        st1.epochEnds = st.epochEnds ++ es ∧
        st1.lastEpoch = st.lastEpoch ∧
        st1.schedKind = none ∧
        st1.trainEnds = st.trainEnds := by
  intro es
  induction es with
  | nil =>
    intro st h _ _
    exact ⟨st, rfl, by simp, by simp, by simp, rfl, h, rfl⟩
  | cons e es ih =>
    intro st hsched htr hvd
    have hv : ∀ vbs, (vd.map fun f => f e) = some vbs →
        ∃ v, runValidPhase vbs sa = Except.ok v := by
      intro vbs hm
      cases vd with
      | none => exact absurd hm (by simp)
      | some f =>
        have hfe : f e = vbs := by simpa using hm
        rw [← hfe]
        exact hvd f rfl e (by simp)
    obtain ⟨stA, hA, a1, a2, a3, a4, a5, a6, -⟩ :=
      runEpoch_no_sched_ok sa (td e) (vd.map fun f => f e) st e hsched (htr e (by simp)) hv
    obtain ⟨stB, hB, b1, b2, b3, b4, b5, b6⟩ :=
      ih stA a5 (fun x hx => htr x (by simp [hx]))
        (fun f hf x hx => hvd f hf x (by simp [hx]))
    refine ⟨stB, ?_, ?_, ?_, ?_, ?_, b5, ?_⟩
    · unfold runEpochs
      rw [hA]
      exact hB
    · simp only [List.length_cons]
      omega
    · simp only [List.length_cons]
      omega
    · rw [b3, a3]
      simp
    · rw [b4, a4]
    · rw [b6, a6]

/-- Auxiliary: fit_loader with no scheduler attached and every epoch
completing: one history entry per epoch, on_epoch_end fired at the
consecutive indices last_epoch + 1 ... last_epoch + n, on_train_end fired
once, and last_epoch itself never reassigned. -/
theorem fit_loader_no_sched (sa : Bool) (td : ℕ → List TrainBatch)
    (vd : Option (ℕ → List ValidBatch)) (n : ℕ) (st : TrainerState)
    (hsched : st.schedKind = none)
    (htr : ∀ e, ∃ q, runTrainPhase (td e) sa = Except.ok q)
    (hvd : ∀ f, vd = some f → ∀ e, ∃ v, runValidPhase (f e) sa = Except.ok v) :
    ∃ st1, fit_loader sa td vd n st = (st1, none) ∧
      st1.trainLosses.length = st.trainLosses.length + n ∧
      st1.validLosses.length = st.validLosses.length + n ∧
      st1.epochEnds = st.epochEnds ++ fitEpochs st.lastEpoch n ∧
      st1.lastEpoch = st.lastEpoch ∧
      st1.schedKind = none ∧
      st1.trainEnds = st.trainEnds + 1 := by
  obtain ⟨stA, hA, a1, a2, a3, a4, a5, a6⟩ :=
    runEpochs_no_sched_ok sa td vd (fitEpochs st.lastEpoch n) st hsched
      (fun e _ => htr e) (fun f hf e _ => hvd f hf e)
  have hlen : (fitEpochs st.lastEpoch n).length = n := by simp [fitEpochs]
  refine ⟨{ stA with trainEnds := stA.trainEnds + 1 }, ?_, ?_, ?_, ?_, ?_, a5, ?_⟩
  · unfold fit_loader
    rw [hA]
  · simpa [hlen] using a1
  · simpa [hlen] using a2
  · exact a3
  · exact a4
  · simpa using a6

/-- Claim C1, counterexample: on a fresh trainer with no callbacks, two
single-epoch fits leave last_epoch at 0 (the claim predicts 1), and both
calls fire on_epoch_end with index 1 (the claim predicts the monotone
sequence 1, 2); the combined history length 2 = 1 + 1 does hold. -/
theorem C1_counterexample :
    (fit_loader false (fun _ => [Except.ok (1, 2)]) none 1
        (fit_loader false (fun _ => [Except.ok (1, 2)]) none 1 trainerInit).1).1.lastEpoch
      = 0 ∧
    trainerInit.lastEpoch + 1 ≠ 0 ∧
    (fit_loader false (fun _ => [Except.ok (1, 2)]) none 1
        (fit_loader false (fun _ => [Except.ok (1, 2)]) none 1 trainerInit).1).1.epochEnds
      = [1, 1] ∧
    (fit_loader false (fun _ => [Except.ok (1, 2)]) none 1
        (fit_loader false (fun _ => [Except.ok (1, 2)]) none 1 trainerInit).1).1.trainLosses.length
      = 2 :=
  ⟨rfl, by decide, rfl, rfl⟩

/-- Claim C1 (corrected): two successive fits of N1 and N2 epochs on a
scheduler-free trainer whose epochs complete yield a training history (and
validation history) of length N1 + N2, but fit_loader never reassigns
last_epoch, so both calls fire on_epoch_end with the same index range
last_epoch + 1 ... last_epoch + Ni: without an external realignment of
last_epoch (load_state, or the checkpoint callback at on_train_begin) the
indices of the second call restart instead of continuing. -/
theorem C1_fit_twice (sa : Bool) (td1 td2 : ℕ → List TrainBatch)
    (vd : Option (ℕ → List ValidBatch)) (n1 n2 : ℕ) (st : TrainerState)
    (hsched : st.schedKind = none)
    (h1 : ∀ e, ∃ q, runTrainPhase (td1 e) sa = Except.ok q)
    (h2 : ∀ e, ∃ q, runTrainPhase (td2 e) sa = Except.ok q)
    (hvd : ∀ f, vd = some f → ∀ e, ∃ v, runValidPhase (f e) sa = Except.ok v) :
    ∃ st1 st2, fit_loader sa td1 vd n1 st = (st1, none) ∧
      fit_loader sa td2 vd n2 st1 = (st2, none) ∧
      st2.trainLosses.length = st.trainLosses.length + (n1 + n2) ∧
      st2.validLosses.length = st.validLosses.length + (n1 + n2) ∧
      st2.epochEnds
        = st.epochEnds ++ fitEpochs st.lastEpoch n1 ++ fitEpochs st.lastEpoch n2 ∧
      st2.lastEpoch = st.lastEpoch := by
  obtain ⟨st1, hf1, a1, a2, a3, a4, a5, -⟩ :=
    fit_loader_no_sched sa td1 vd n1 st hsched h1 hvd
  obtain ⟨st2, hf2, b1, b2, b3, b4, -, -⟩ :=
    fit_loader_no_sched sa td2 vd n2 st1 a5 h2 hvd
  refine ⟨st1, st2, hf1, hf2, by omega, by omega, ?_, by rw [b4, a4]⟩
  rw [b3, a3, a4]

/-- Witness for C1 at a concrete scheduler-free trainer with one good
one-sample batch per epoch and two single-epoch fits. -/
theorem C1_fit_twice_witness :
    ∃ st1 st2,
      fit_loader false (fun _ => [Except.ok (1, 2)]) none 1 trainerInit = (st1, none) ∧
      fit_loader false (fun _ => [Except.ok (1, 2)]) none 1 st1 = (st2, none) ∧
      st2.trainLosses.length = trainerInit.trainLosses.length + (1 + 1) ∧
      st2.validLosses.length = trainerInit.validLosses.length + (1 + 1) ∧
      st2.epochEnds = trainerInit.epochEnds ++ fitEpochs trainerInit.lastEpoch 1
          ++ fitEpochs trainerInit.lastEpoch 1 ∧
      st2.lastEpoch = trainerInit.lastEpoch :=
  C1_fit_twice false (fun _ => [Except.ok (1, 2)]) (fun _ => [Except.ok (1, 2)])
    none 1 1 trainerInit rfl
    (fun _ => ⟨_, rfl⟩) (fun _ => ⟨_, rfl⟩) (fun _ hf => Option.noConfusion hf)

/-- Auxiliary: the epoch tail never touches the on_train_end counter. -/
theorem epochFinish_trainEnds (st : TrainerState) (e : ℕ) :
    (epochFinish st e).1.trainEnds = st.trainEnds := by
  unfold epochFinish
  split
  · rfl
  · rfl
  · rfl

/-- Auxiliary: one epoch never touches the on_train_end counter. -/
theorem runEpoch_trainEnds (sa : Bool) (tb : List TrainBatch)
    (vb : Option (List ValidBatch)) (st : TrainerState) (e : ℕ) :
    (runEpoch sa tb vb st e).1.trainEnds = st.trainEnds := by
  unfold runEpoch
  split
  · rfl
  · split
    · exact epochFinish_trainEnds _ _
    · split
      · rfl
      · exact epochFinish_trainEnds _ _

/-- Auxiliary: the epoch loop never touches the on_train_end counter. -/
theorem runEpochs_trainEnds (sa : Bool) (td : ℕ → List TrainBatch)
    (vd : Option (ℕ → List ValidBatch)) :
    ∀ (es : List ℕ) (st : TrainerState),
      (runEpochs sa td vd es st).1.trainEnds = st.trainEnds := by
  intro es
  induction es with
  | nil => intro st; rfl
  | cons e es ih =>
    intro st
    unfold runEpochs
    split
    · rename_i st1 heq
      rw [ih st1]
      have h := runEpoch_trainEnds sa (td e) (vd.map fun f => f e) st e
      rw [heq] at h
      exact h
    · rename_i st1 exc heq
      have h := runEpoch_trainEnds sa (td e) (vd.map fun f => f e) st e
      rw [heq] at h
      exact h

/-- Claim C9 (confirmed): if the epoch loop of fit_loader raises
KeyboardInterrupt anywhere, fit_loader swallows it, keeps the metrics
accumulated so far and still fires on_train_end; every other exception
propagates as is and on_train_end is not fired. -/
theorem C9_keyboard_interrupt (sa : Bool) (td : ℕ → List TrainBatch)
    (vd : Option (ℕ → List ValidBatch)) (n : ℕ) (st st1 : TrainerState) :
    (runEpochs sa td vd (fitEpochs st.lastEpoch n) st = (st1, some PyExc.keyboardInterrupt) →
      fit_loader sa td vd n st = ({ st1 with trainEnds := st1.trainEnds + 1 }, none)) ∧
    (∀ e, runEpochs sa td vd (fitEpochs st.lastEpoch n) st = (st1, some e) →
      e ≠ PyExc.keyboardInterrupt →
      fit_loader sa td vd n st = (st1, some e) ∧ st1.trainEnds = st.trainEnds) := by
  constructor
  · intro h
    unfold fit_loader
    rw [h]
  · intro e h hne
    have hpres : st1.trainEnds = st.trainEnds := by
      have hp := runEpochs_trainEnds sa td vd (fitEpochs st.lastEpoch n) st
      rw [h] at hp
      exact hp
    refine ⟨?_, hpres⟩
    unfold fit_loader
    rw [h]
    cases e with
    | keyboardInterrupt => exact absurd rfl hne
    | zeroDivisionError => rfl
    | attributeError => rfl
    | typeError => rfl
    | other => rfl

/-- Witness for C9: a first batch raising KeyboardInterrupt is swallowed
with on_train_end fired; a first batch raising another exception
propagates with on_train_end not fired. -/
theorem C9_keyboard_interrupt_witness :
    fit_loader false (fun _ => [Except.error PyExc.keyboardInterrupt]) none 1 trainerInit
      = ({ trainerInit with trainEnds := trainerInit.trainEnds + 1 }, none) ∧
    (fit_loader false (fun _ => [Except.error PyExc.other]) none 1 trainerInit
      = (trainerInit, some PyExc.other) ∧ trainerInit.trainEnds = trainerInit.trainEnds) :=
  ⟨(C9_keyboard_interrupt false (fun _ => [Except.error PyExc.keyboardInterrupt])
      none 1 trainerInit trainerInit).1 rfl,
   (C9_keyboard_interrupt false (fun _ => [Except.error PyExc.other])
      none 1 trainerInit trainerInit).2 PyExc.other rfl (by decide)⟩

/-- Auxiliary: when the epoch tail completes without exception, exactly
one step call was recorded when a scheduler is attached and none
otherwise. -/
theorem epochFinish_ok_stepCalls (st : TrainerState) (ep : ℕ) (st1 : TrainerState)
    (h : epochFinish st ep = (st1, none)) :
    st1.stepCalls.length = st.stepCalls.length + (if st.schedKind = none then 0 else 1) := by
  unfold epochFinish at h
  rcases hd : schedDispatch st.schedKind st.validLossAttr with e' | c
  · rw [hd] at h
    simp at h
  · rw [hd] at h
    cases c with
    | none =>
      have hk : st.schedKind = none := by
        cases hk2 : st.schedKind with
        | none => rfl
        | some k =>
          rw [hk2] at hd
          cases k with
          | reduceLROnPlateau =>
            cases ha : st.validLossAttr with
            | none => rw [ha] at hd; simp [schedDispatch] at hd
            | some vo =>
              cases vo with
              | none => rw [ha] at hd; simp [schedDispatch] at hd
              | some v => rw [ha] at hd; simp [schedDispatch] at hd
          | otherKind => simp [schedDispatch] at hd
      injection h with h1 h2
      subst h1
      simp [hk]
    | some c2 =>
      have hk : ¬ st.schedKind = none := by
        intro hn
        rw [hn] at hd
        simp [schedDispatch] at hd
      injection h with h1 h2
      subst h1
      simp [hk]

/-- Auxiliary: an epoch that completes without exception makes exactly one
scheduler step call when a scheduler is attached and none otherwise. -/
theorem runEpoch_ok_stepCalls (sa : Bool) (tb : List TrainBatch)
    (vb : Option (List ValidBatch)) (st : TrainerState) (e : ℕ) (st1 : TrainerState)
    (h : runEpoch sa tb vb st e = (st1, none)) :
    st1.stepCalls.length = st.stepCalls.length + (if st.schedKind = none then 0 else 1) := by
  rcases htp : runTrainPhase tb sa with e' | tl
  · simp only [runEpoch, htp] at h
    simp at h
  · simp only [runEpoch, htp] at h
    cases vb with
    | none =>
      have h2 := epochFinish_ok_stepCalls _ e st1 (by exact h)
      simpa using h2
    | some vbs =>
      rcases hvp : runValidPhase vbs sa with e' | vl
      · simp only [hvp] at h
        simp at h
      · simp only [hvp] at h
        have h2 := epochFinish_ok_stepCalls _ e st1 (by exact h)
        simpa using h2

/-- Claim C4, counterexample: a ReduceLROnPlateau scheduler on a trainer
that never ran a validation phase is not stepped without a metric as the
claim says: the read of the never-assigned valid_loss attribute raises
AttributeError, no step call is made, and on_train_end is not reached. -/
theorem C4_counterexample :
    (fit_loader false (fun _ => [Except.ok (1, 2)]) none 1
        { trainerInit with schedKind := some SchedKind.reduceLROnPlateau }).2
      = some PyExc.attributeError ∧
    (fit_loader false (fun _ => [Except.ok (1, 2)]) none 1
        { trainerInit with schedKind := some SchedKind.reduceLROnPlateau }).1.stepCalls
      = [] ∧
    (fit_loader false (fun _ => [Except.ok (1, 2)]) none 1
        { trainerInit with schedKind := some SchedKind.reduceLROnPlateau }).1.trainEnds
      = 0 :=
  ⟨rfl, rfl, rfl⟩

/-- Claim C4 (corrected): at the end of every completing epoch an attached
scheduler is stepped exactly once; a ReduceLROnPlateau scheduler receives
the value of the valid_loss attribute when that attribute is set and
non-null (the current validation loss when validation ran this epoch, a
stale one otherwise), is stepped without a metric when the attribute is
set to null, and makes the epoch raise AttributeError when the attribute
was never assigned; every non-ReduceLROnPlateau scheduler is stepped
without a metric. -/
theorem C4_scheduler_step :
    (∀ a, schedDispatch none a = Except.ok none) ∧
    (∀ a, schedDispatch (some SchedKind.otherKind) a = Except.ok (some SchedStep.plain)) ∧
    (∀ v : ℚ, schedDispatch (some SchedKind.reduceLROnPlateau) (some (some v))
        = Except.ok (some (SchedStep.withMetric v))) ∧
    (schedDispatch (some SchedKind.reduceLROnPlateau) (some none)
        = Except.ok (some SchedStep.plain)) ∧
    (schedDispatch (some SchedKind.reduceLROnPlateau) none
        = Except.error PyExc.attributeError) ∧
    (∀ (sa : Bool) (tb : List TrainBatch) (vb : Option (List ValidBatch))
        (st : TrainerState) (e : ℕ) (st1 : TrainerState),
      runEpoch sa tb vb st e = (st1, none) →
      st1.stepCalls.length = st.stepCalls.length + (if st.schedKind = none then 0 else 1)) :=
  ⟨fun _ => rfl, fun _ => rfl, fun _ => rfl, rfl, rfl,
   fun sa tb vb st e st1 h => runEpoch_ok_stepCalls sa tb vb st e st1 h⟩

/-- Witness for C4: a completing scheduler-free epoch records no step
call, and the dispatch passes a concrete non-null metric to a
ReduceLROnPlateau scheduler. -/
theorem C4_scheduler_step_witness :
    ((runEpoch false [Except.ok (1, 2)] none trainerInit 1).1).stepCalls.length
      = trainerInit.stepCalls.length + (if trainerInit.schedKind = none then 0 else 1) ∧
    schedDispatch (some SchedKind.reduceLROnPlateau) (some (some 3))
      = Except.ok (some (SchedStep.withMetric 3)) :=
  ⟨C4_scheduler_step.2.2.2.2.2 false [Except.ok (1, 2)] none trainerInit 1
      (runEpoch false [Except.ok (1, 2)] none trainerInit 1).1 rfl,
   C4_scheduler_step.2.2.1 3⟩

/-- Claim C6 (confirmed): whatever way the lr_find sweep ends (normal
completion, early stop, or an exception, which is re-raised), the model
parameters and the metric histories held before the call are restored
before lr_find returns or propagates. -/
theorem C6_lr_find_restores (be : ℕ → List ℚ → List ℚ) (lrAt : ℕ → ℚ)
    (data : List (Except PyExc ℚ)) (numIt : ℕ) (st : LRState) :
    ((lr_find_model be lrAt data numIt st).1.params = st.params ∧
     (lr_find_model be lrAt data numIt st).1.trainLosses = st.trainLosses ∧
     (lr_find_model be lrAt data numIt st).1.validLosses = st.validLosses) ∧
    (∀ e, (lrSweep be lrAt numIt data 0 st.params [] [] 1000000000).2.2.2 = some e →
      (lr_find_model be lrAt data numIt st).2 = Except.error e) := by
  constructor
  · rcases h : lrSweep be lrAt numIt data 0 st.params [] [] 1000000000
      with ⟨p, lrs, losses, exc⟩
    cases exc with
    | none => simp [lr_find_model, h, load_state_model]
    | some e => simp [lr_find_model, h, load_state_model]
  · intro e he
    rcases h : lrSweep be lrAt numIt data 0 st.params [] [] 1000000000
      with ⟨p, lrs, losses, exc⟩
    rw [h] at he
    simp at he
    subst he
    simp [lr_find_model, h]

/-- Witness for C6: a sweep whose first batch raises an exception still
returns the pre-call parameters and re-raises the exception. -/
theorem C6_lr_find_restores_witness :
    (lr_find_model (fun _ p => p) (fun _ => 0) [Except.error PyExc.other] 5
        { params := [3], lastEpoch := 0, trainLosses := [1], validLosses := [none] }).1.params
      = [3] ∧
    (lr_find_model (fun _ p => p) (fun _ => 0) [Except.error PyExc.other] 5
        { params := [3], lastEpoch := 0, trainLosses := [1], validLosses := [none] }).2
      = Except.error PyExc.other :=
  ⟨(C6_lr_find_restores (fun _ p => p) (fun _ => 0) [Except.error PyExc.other] 5
      { params := [3], lastEpoch := 0, trainLosses := [1], validLosses := [none] }).1.1,
   (C6_lr_find_restores (fun _ p => p) (fun _ => 0) [Except.error PyExc.other] 5
      { params := [3], lastEpoch := 0, trainLosses := [1], validLosses := [none] }).2
      PyExc.other rfl⟩

end TrainerSpec
